import Mathlib

/-!
# ping_go: a shallow embedding of `main.go`

The program is a small ICMP Echo client.  This development embeds

* `Checksum`   (main.go, lines 78-95),
* `getICMP`    (main.go, lines 97-110),
* `sendICMP`   (main.go, lines 113-142),
* the probe loop and the final summary of `main` (main.go, lines 157-164),

and states the properties of the specification over these definitions.

Conventions.  A Go `[]byte` is a `List Nat` whose elements are below 256.  A
`uint16` is a `Nat` below `65536`, a `uint32` a `Nat` below `4294967296`; every
operation that can leave the range is reduced modulo the width at the place
where Go wraps.  A Go `int` / `int64` is an `Int`, wrapped into the signed
64-bit range by `wrapInt` after every `++` and `*`.  The network is not part of
the program: what `net.DialIP`, `conn.Write` and `conn.Read` answer for a probe
is an input of the model (`Outcome`).  The flag values `num` (`-n`) and `size`
(`-l`) are parameters.
-/

namespace PingGo

/-! ## Checksum -/

/-- The two branches that accumulate into `sum` in `Checksum`:
`for length > 1 { sum += uint32(data[index])<<8 + uint32(data[index+1]) ... }`
followed by `if length == 1 { sum += uint32(data[index]) }`.
The list is what remains of `data` from `index` on, `sum` is the `uint32`
accumulator, so every `+=` is reduced modulo `2^32`. -/
def sumLoop : List Nat → Nat → Nat
  | b0 :: b1 :: rest, sum => sumLoop rest ((sum + (b0 <<< 8 + b1)) % 4294967296)
  | [b0], sum => (sum + b0) % 4294967296
  | [], sum => sum

/-- The last two lines of `Checksum`: `csum = uint16(sum) + uint16(sum>>16)`
(an addition of two `uint16`, so it wraps modulo `2^16`) and `return ^csum`
(the bitwise complement of a `uint16` is `0xFFFF - csum`). -/
def foldSum (sum : Nat) : Nat :=
  let csum := (sum % 65536 + (sum >>> 16) % 65536) % 65536
  65535 - csum

/-- Checksum of main.go: `func Checksum(data []byte) uint16`. -/
def Checksum (data : List Nat) : Nat :=
  foldSum (sumLoop data 0)

/-- A list of naturals that is a Go `[]byte`. -/
def IsBytes (data : List Nat) : Prop := ∀ b ∈ data, b < 256

instance (data : List Nat) : Decidable (IsBytes data) := by
  unfold IsBytes; infer_instance

/-- The operation of the self-verification law, in the words of the
specification: the 16-bit value `c` is written big-endian into the checksum
field, bytes 2 and 3 of the buffer. -/
def putChecksum (data : List Nat) (c : Nat) : List Nat :=
  (data.set 2 ((c >>> 8) % 256)).set 3 (c % 256)

/-! ## The ICMP header and `getICMP` -/

/-- The struct `ICMP` of main.go: two `uint8` and three `uint16` fields.  The
field `Type` is written `Typ`, the source's name being a keyword here. -/
structure ICMP where
  Typ : Nat
  Code : Nat
  Checksum : Nat
  Identifier : Nat
  SequenceNum : Nat
deriving DecidableEq, Repr

/-- The two bytes `binary.BigEndian` writes for a `uint16`:
`byte(v >> 8)` and then `byte(v)`. -/
def putUint16 (v : Nat) : List Nat :=
  [(v >>> 8) % 256, v % 256]

/-- The bytes `binary.Write(&buffer, binary.BigEndian, icmp)` appends for an
`ICMP` value: the fields in declaration order, the `uint16` ones big-endian. -/
def serialize (icmp : ICMP) : List Nat :=
  [icmp.Typ % 256, icmp.Code % 256] ++ putUint16 icmp.Checksum
    ++ putUint16 icmp.Identifier ++ putUint16 icmp.SequenceNum

/-- The function getICMP of main.go, `func getICMP(seq uint16) ICMP`: the header is built with a
zero checksum, serialized, and the checksum of these bytes is stored in the
header. -/
def getICMP (seq : Nat) : ICMP :=
  let icmp : ICMP :=
    { Typ := 8, Code := 0, Checksum := 0, Identifier := 1, SequenceNum := seq }
  { icmp with Checksum := Checksum (serialize icmp) }

/-- The conversion `uint16(i)` of an `int`. -/
def toUint16 (i : Int) : Nat := (i % 65536).toNat

/-! ## sendICMP -/

/-- The package variable `ps` (`ps int = 4`); nothing assigns to it. -/
def ps : Nat := 4

/-- The bytes handed to `conn.Write` (main.go, lines 120-123): the serialized
header followed by `data[0:ps]`, where `data` is `make([]byte, 1024)`.  The
slice expression panics when `ps` exceeds the length of `data`. -/
def sendBuffer (icmp : ICMP) (ps : Nat) : Option (List Nat) :=
  if ps ≤ 1024 then some (serialize icmp ++ (List.replicate 1024 0).take ps) else none

/-- Wrap-around of a signed 64-bit integer (the Go `int` of a 64-bit
platform, and `int64`). -/
def wrapInt (x : Int) : Int :=
  (x + 9223372036854775808) % 18446744073709551616 - 9223372036854775808

/-- What the network answers during one call of `sendICMP`:
`net.DialIP` fails; `conn.Write` fails; `conn.Read` fails (deadline exceeded
or another read error); or the read returns data.  The last two say what
`conn.Read` would answer: the call gets there only if the allocation of the
receive buffer on the line before does not panic. -/
inductive Outcome
  | connectFailure
  | writeFailure
  | readFailure
  | success
deriving DecidableEq, Repr

/-- The package variables `sendpkg`, `recvpkg` and `failpkg`. -/
structure Counters where
  sendpkg : Int
  recvpkg : Int
  failpkg : Int
deriving DecidableEq, Repr

/-- How a call of `sendICMP` ends: it returns `nil`, it returns an error,
`log.Fatal` ends the process, or a run-time panic ends it. -/
inductive Ret
  | nil
  | err
  | fatal
  | panic
deriving DecidableEq, Repr

/-- The largest number of bytes `make` accepts on a 64-bit platform
(`maxAlloc` of the Go runtime, `1 << 48` on linux/amd64). -/
def maxAlloc : Int := 281474976710656

/-- The default of the flag `-l` in `ParseArgs`. -/
def defaultSize : Int := 32

/-- The function sendICMP of main.go as a step on the counters.  A failed
`DialIP` returns before any counter is touched; `sendpkg++` comes right before
`conn.Write`; a failed write does `failpkg++` and `log.Fatal`; a failed read
does `failpkg++` and returns the error; otherwise `recvpkg++`.  Between the
write and the read stands `recv := make([]byte, size)` with the value of the
flag `-l`: `make` panics (`makeslice: len out of range`) when `size` is
negative or above `maxAlloc`, and the process ends there, after `sendpkg++`
and before any other counter is touched; an allocation within these limits is
taken to succeed.  The bytes handed to `conn.Write` are `sendBuffer icmp ps`;
the header and the address have no influence on the counters, so they are not
arguments here. -/
def sendICMP (size : Int) (o : Outcome) (c : Counters) : Counters × Ret :=
  match o with
  | .connectFailure => (c, .err)
  | .writeFailure =>
      ({ c with sendpkg := wrapInt (c.sendpkg + 1), failpkg := wrapInt (c.failpkg + 1) }, .fatal)
  | .readFailure =>
      if size < 0 ∨ maxAlloc < size then
        ({ c with sendpkg := wrapInt (c.sendpkg + 1) }, .panic)
      else
        ({ c with sendpkg := wrapInt (c.sendpkg + 1), failpkg := wrapInt (c.failpkg + 1) }, .err)
  | .success =>
      if size < 0 ∨ maxAlloc < size then
        ({ c with sendpkg := wrapInt (c.sendpkg + 1) }, .panic)
      else
        ({ c with sendpkg := wrapInt (c.sendpkg + 1), recvpkg := wrapInt (c.recvpkg + 1) }, .nil)

/-- The unit of `time.Duration` is the nanosecond; `time.Millisecond` is
`1000 * 1000` of them. -/
def Millisecond : Int := 1000000

/-- The argument of `time.Now().Add(...)` in
`conn.SetReadDeadline(time.Now().Add(time.Duration(timeout)))`, in nanoseconds:
`time.Duration` is an `int64`, so the conversion of the `int64` flag value
keeps the number. -/
def readDeadlineDuration (timeout : Int) : Int := timeout

/-- The default of the flag `-w` in `ParseArgs`, documented there as
milliseconds. -/
def defaultTimeout : Int := 1500

/-! ## The probe loop and the summary of `main` -/

/-- Where the probe loop stands: the given outcomes ran out while `i <= num`
still held, the loop condition failed, `log.Fatal` ended the process, or the
panic of `make([]byte, size)` ended it. -/
inductive Status
  | running
  | finished
  | fatal
  | panicked
deriving DecidableEq, Repr

/-- The state of a run: the counters, the headers `getICMP` returned so far
(in iteration order), and where the loop stands. -/
structure Run where
  counters : Counters
  requests : List ICMP
  status : Status
deriving DecidableEq, Repr

/-- The state at process start: all counters zero, nothing built. -/
def Run.init : Run :=
  { counters := { sendpkg := 0, recvpkg := 0, failpkg := 0 }, requests := [], status := .running }

/-- The loop `for i := 1; i <= num; i++ { icmp := getICMP(uint16(i)); sendICMP(icmp, dst); ... }`
from the iteration with loop variable `i` on, for the flag values `size` and
`num`.  The list holds the outcomes of the calls of `sendICMP` still to come,
one per iteration. -/
def probeLoop (size num : Int) : List Outcome → Int → Run → Run
  | [], i, r =>
      if i ≤ num then { r with status := .running } else { r with status := .finished }
  | o :: rest, i, r =>
      if i ≤ num then
        let icmp := getICMP (toUint16 i)
        let res := sendICMP size o r.counters
        let r1 : Run := { r with counters := res.1, requests := r.requests ++ [icmp] }
        match res.2 with
        | .fatal => { r1 with status := .fatal }
        | .panic => { r1 with status := .panicked }
        | _ => probeLoop size num rest (wrapInt (i + 1)) r1
      else { r with status := .finished }

/-- The integer `failpkg/(sendpkg*100)` that the summary converts with
`float32(...)`: the product wraps, a zero divisor is a run-time panic
(`none`), and the quotient truncates toward zero. -/
def lossArg (c : Counters) : Option Int :=
  let d := wrapInt (c.sendpkg * 100)
  if d = 0 then none else some (wrapInt (Int.tdiv c.failpkg d))

/-- How the process ends (or does not, within the given outcomes): still in
the loop; `log.Fatal` in `sendICMP`; the panic of `make([]byte, size)` in
`sendICMP`; the integer division by zero in the argument of the summary
(`panic`); or the summary line. -/
inductive Exit
  | running
  | fatal
  | makeslice
  | panic
  | summary (sent recv fail loss : Int)
deriving DecidableEq, Repr

/-- The part of `main` after the address is resolved: the probe loop from
`i := 1` and zeroed counters, then the summary line with `sendpkg`, `recvpkg`,
`failpkg` and the loss value.  Flag parsing, the usage text, the resolution of
the address, the printed lines of the probes and `time.Sleep` are left out:
none of them touches the counters or the headers. -/
def main (size num : Int) (outs : List Outcome) : Exit :=
  let r := probeLoop size num outs 1 Run.init
  match r.status with
  | .running => .running
  | .fatal => .fatal
  | .panicked => .makeslice
  | .finished =>
      match lossArg r.counters with
      | none => .panic
      | some l => .summary r.counters.sendpkg r.counters.recvpkg r.counters.failpkg l

theorem sumLoop_zeros (n : Nat) : ∀ acc : Nat, acc < 4294967296 →
    sumLoop (List.replicate n 0) acc = acc := by
  induction n using Nat.strong_induction_on with
  | _ n ih =>
    intro acc hacc
    match n with
    | 0 => simp [sumLoop]
    | 1 => simp [sumLoop]; omega
    | m + 2 =>
      have h : List.replicate (m + 2) 0 = 0 :: 0 :: List.replicate m 0 := by
        simp [List.replicate_succ]
      rw [h, sumLoop]
      have e : (acc + (0 <<< 8 + 0)) % 4294967296 = acc := by
        simp; omega
      rw [e]
      exact ih m (by omega) acc hacc

theorem putUint16_word (v : Nat) (h : v < 65536) :
    ((v >>> 8) % 256) <<< 8 + v % 256 = v := by
  simp only [Nat.shiftLeft_eq, Nat.shiftRight_eq_div_pow]
  omega

theorem sumLoop_serialize (icmp : ICMP) (hC : icmp.Checksum < 65536)
    (hI : icmp.Identifier < 65536) (hS : icmp.SequenceNum < 65536) :
    sumLoop (serialize icmp) 0
      = (icmp.Typ % 256) * 256 + icmp.Code % 256 + icmp.Checksum + icmp.Identifier
          + icmp.SequenceNum := by
  simp only [serialize, putUint16, List.cons_append, List.nil_append, sumLoop,
    putUint16_word _ hC, putUint16_word _ hI, putUint16_word _ hS]
  simp only [Nat.shiftLeft_eq]
  omega

theorem foldSum_eq (s : Nat) :
    foldSum s = 65535 - (s % 65536 + (s / 65536) % 65536) % 65536 := by
  simp only [foldSum, Nat.shiftRight_eq_div_pow, Nat.reducePow]

theorem foldSum_lt (s : Nat) : foldSum s < 65536 := by
  rw [foldSum_eq]; omega

theorem getICMP_checksum (seq : Nat) (h : seq < 65536) :
    (getICMP seq).Checksum = foldSum (2049 + seq) := by
  show Checksum (serialize
    { Typ := 8, Code := 0, Checksum := 0, Identifier := 1, SequenceNum := seq }) = _
  have h0 : (0 : Nat) < 65536 := by decide
  have h1 : (1 : Nat) < 65536 := by decide
  unfold Checksum
  rw [sumLoop_serialize _ h0 h1 h]
  have e : 8 % 256 * 256 + 0 % 256 + 0 + 1 + seq = 2049 + seq := by omega
  exact congrArg foldSum e

/-- With `c` the checksum of a header whose words sum to `2049 + s` and `t` the
sum of the words once `c` is stored, the fold of `t` gives `0xFFFF`. -/
theorem fold_arith (s : Nat) (h : s < 65536) (c t : Nat)
    (hc : c = 65535 - ((2049 + s) % 65536 + (2049 + s) / 65536 % 65536) % 65536)
    (ht : t = 2048 + c + 1 + s) :
    65535 - (t % 65536 + t / 65536 % 65536) % 65536 = 0 := by
  by_cases hs : s < 63487
  · have h1 : (2049 + s) / 65536 = 0 := by omega
    have h2 : (2049 + s) % 65536 = 2049 + s := by omega
    rw [h1, h2] at hc
    have h4 : t = 65535 := by omega
    subst h4
    decide
  · have h1 : (2049 + s) / 65536 = 1 := by omega
    have h2 : (2049 + s) % 65536 = s - 63487 := by omega
    rw [h1, h2] at hc
    have h4 : t = 131070 := by omega
    subst h4
    decide

theorem header_verifies (seq : Nat) (h : seq < 65536) :
    Checksum (serialize (getICMP seq)) = 0 := by
  have hc := getICMP_checksum seq h
  have hlt : (getICMP seq).Checksum < 65536 := by rw [hc]; exact foldSum_lt _
  have hI : (getICMP seq).Identifier < 65536 := by show 1 < 65536; decide
  have hS : (getICMP seq).SequenceNum < 65536 := h
  unfold Checksum
  rw [sumLoop_serialize _ hlt hI hS, hc]
  show foldSum (8 % 256 * 256 + 0 % 256 + foldSum (2049 + seq) + 1 + seq) = 0
  rw [foldSum_eq (2049 + seq), foldSum_eq]
  exact fold_arith seq h _ _ rfl (by omega)

theorem sumLoop_append_zeros (a b c d e f g h : Nat) (n : Nat) :
    sumLoop ([a, b, c, d, e, f, g, h] ++ List.replicate n 0) 0
      = sumLoop [a, b, c, d, e, f, g, h] 0 := by
  simp only [List.cons_append, List.nil_append, List.append_eq, sumLoop]
  rw [sumLoop_zeros n _ (Nat.mod_lt _ (by decide))]

theorem checksum_append_zeros (icmp : ICMP) (n : Nat) :
    Checksum (serialize icmp ++ List.replicate n 0) = Checksum (serialize icmp) := by
  have e : serialize icmp = [icmp.Typ % 256, icmp.Code % 256,
      (icmp.Checksum >>> 8) % 256, icmp.Checksum % 256,
      (icmp.Identifier >>> 8) % 256, icmp.Identifier % 256,
      (icmp.SequenceNum >>> 8) % 256, icmp.SequenceNum % 256] := rfl
  unfold Checksum
  rw [e, sumLoop_append_zeros]

/-! ## Lemmas on the probe loop -/

theorem wrapInt_of_range (x : Int) (h1 : -9223372036854775808 ≤ x)
    (h2 : x < 9223372036854775808) : wrapInt x = x := by
  unfold wrapInt; omega

theorem toUint16_natCast (n : Nat) : toUint16 (n : Int) = n % 65536 := by
  unfold toUint16; omega

theorem getICMP_seq (s : Nat) : (getICMP s).SequenceNum = s := rfl

theorem toUint16_lt (i : Int) : toUint16 i < 65536 := by
  unfold toUint16; omega

/-- A size between `0` and `maxAlloc` does not make the allocation panic. -/
theorem alloc_ok (size : Int) (h0 : 0 ≤ size) (h1 : size ≤ maxAlloc) :
    ¬ (size < 0 ∨ maxAlloc < size) := by
  omega

theorem probeLoop_exit (size num : Int) (outs : List Outcome) (i : Int) (r : Run)
    (h : ¬ i ≤ num) :
    probeLoop size num outs i r = { r with status := .finished } := by
  cases outs <;> simp [probeLoop, h]

theorem probeLoop_step (size num : Int) (o : Outcome) (rest : List Outcome) (i : Int)
    (r : Run) (hp : ¬ (size < 0 ∨ maxAlloc < size)) (h : i ≤ num) (ho : o ≠ .writeFailure) :
    probeLoop size num (o :: rest) i r
      = probeLoop size num rest (wrapInt (i + 1))
          { counters := (sendICMP size o r.counters).1,
            requests := r.requests ++ [getICMP (toUint16 i)], status := r.status } := by
  cases o <;> first | exact absurd rfl ho | simp [probeLoop, h, sendICMP, hp]

theorem probeLoop_counts (size num : Int) (hp : ¬ (size < 0 ∨ maxAlloc < size))
    (hnum : num < 9223372036854775807) :
    ∀ (outs : List Outcome) (i : Int) (r : Run),
    1 ≤ i → i + outs.length = num + 1 → Outcome.writeFailure ∉ outs →
    0 ≤ r.counters.sendpkg → 0 ≤ r.counters.recvpkg → 0 ≤ r.counters.failpkg →
    r.counters.sendpkg + outs.length < 9223372036854775808 →
    r.counters.recvpkg + outs.length < 9223372036854775808 →
    r.counters.failpkg + outs.length < 9223372036854775808 →
    (probeLoop size num outs i r).status = .finished ∧
    (probeLoop size num outs i r).counters.sendpkg + outs.count .connectFailure
      = r.counters.sendpkg + outs.length ∧
    (probeLoop size num outs i r).counters.recvpkg = r.counters.recvpkg + outs.count .success ∧
    (probeLoop size num outs i r).counters.failpkg
      = r.counters.failpkg + outs.count .readFailure := by
  intro outs
  induction outs with
  | nil =>
    intro i r hi hlen _ _ _ _ _ _ _
    simp only [List.length_nil, Nat.cast_zero, add_zero] at hlen
    rw [probeLoop_exit size num [] i r (by omega)]
    simp
  | cons o rest ih =>
    intro i r hi hlen hw hs hr hf bs br bf
    simp only [List.length_cons, Nat.cast_add, Nat.cast_one] at hlen bs br bf
    have ho : o ≠ .writeFailure := fun h => hw (by simp [h])
    have hrest : Outcome.writeFailure ∉ rest := fun h => hw (List.mem_cons_of_mem _ h)
    rw [probeLoop_step size num o rest i r hp (by omega) ho,
      wrapInt_of_range (i + 1) (by omega) (by omega)]
    have e1 := wrapInt_of_range (r.counters.sendpkg + 1) (by omega) (by omega)
    have e2 := wrapInt_of_range (r.counters.recvpkg + 1) (by omega) (by omega)
    have e3 := wrapInt_of_range (r.counters.failpkg + 1) (by omega) (by omega)
    cases o with
    | writeFailure => exact absurd rfl ho
    | connectFailure =>
      obtain ⟨a, b, c, d⟩ := ih (i + 1)
        { counters := (sendICMP size .connectFailure r.counters).1,
          requests := r.requests ++ [getICMP (toUint16 i)], status := r.status }
        (by omega) (by omega) hrest
        (by simpa [sendICMP] using hs) (by simpa [sendICMP] using hr)
        (by simpa [sendICMP] using hf)
        (by simp only [sendICMP]; omega) (by simp only [sendICMP]; omega)
        (by simp only [sendICMP]; omega)
      simp only [sendICMP] at a b c d ⊢
      refine ⟨a, ?_, ?_, ?_⟩
      · simp only [List.count_cons_self, List.length_cons]; push_cast; omega
      · rw [c]; simp [List.count_cons]
      · rw [d]; simp [List.count_cons]
    | readFailure =>
      obtain ⟨a, b, c, d⟩ := ih (i + 1)
        { counters := (sendICMP size .readFailure r.counters).1,
          requests := r.requests ++ [getICMP (toUint16 i)], status := r.status }
        (by omega) (by omega) hrest
        (by simp only [sendICMP, if_neg hp, e1]; omega)
        (by simpa [sendICMP, hp] using hr)
        (by simp only [sendICMP, if_neg hp, e3]; omega)
        (by simp only [sendICMP, if_neg hp, e1]; omega)
        (by simp only [sendICMP, if_neg hp]; omega)
        (by simp only [sendICMP, if_neg hp, e3]; omega)
      simp only [sendICMP, if_neg hp, e1, e3] at a b c d ⊢
      refine ⟨a, ?_, ?_, ?_⟩
      · simp [List.count_cons]; omega
      · rw [c]; simp [List.count_cons]
      · rw [d]; simp [List.count_cons]; omega
    | success =>
      obtain ⟨a, b, c, d⟩ := ih (i + 1)
        { counters := (sendICMP size .success r.counters).1,
          requests := r.requests ++ [getICMP (toUint16 i)], status := r.status }
        (by omega) (by omega) hrest
        (by simp only [sendICMP, if_neg hp, e1]; omega)
        (by simp only [sendICMP, if_neg hp, e2]; omega)
        (by simpa [sendICMP, hp] using hf)
        (by simp only [sendICMP, if_neg hp, e1]; omega)
        (by simp only [sendICMP, if_neg hp, e2]; omega)
        (by simp only [sendICMP, if_neg hp]; omega)
      simp only [sendICMP, if_neg hp, e1, e2] at a b c d ⊢
      refine ⟨a, ?_, ?_, ?_⟩
      · simp [List.count_cons]; omega
      · rw [c]; simp [List.count_cons]; omega
      · rw [d]; simp [List.count_cons]

theorem probeLoop_requests (size num : Int) (hp : ¬ (size < 0 ∨ maxAlloc < size))
    (hnum : num < 9223372036854775807) :
    ∀ (outs : List Outcome) (i : Int) (r : Run),
    1 ≤ i → i + outs.length = num + 1 → Outcome.writeFailure ∉ outs →
    (probeLoop size num outs i r).requests
      = r.requests
          ++ (List.range outs.length).map (fun k : Nat => getICMP (toUint16 (i + k))) := by
  intro outs
  induction outs with
  | nil =>
    intro i r hi hlen _
    simp only [List.length_nil, Nat.cast_zero, add_zero] at hlen
    rw [probeLoop_exit size num [] i r (by omega)]
    simp
  | cons o rest ih =>
    intro i r hi hlen hw
    simp only [List.length_cons, Nat.cast_add, Nat.cast_one] at hlen
    have ho : o ≠ .writeFailure := fun h => hw (by simp [h])
    have hrest : Outcome.writeFailure ∉ rest := fun h => hw (List.mem_cons_of_mem _ h)
    rw [probeLoop_step size num o rest i r hp (by omega) ho,
      wrapInt_of_range (i + 1) (by omega) (by omega),
      ih (i + 1) _ (by omega) (by omega) hrest]
    simp only [List.length_cons, List.range_succ_eq_map, List.map_cons, List.map_map,
      List.append_assoc, List.singleton_append, Nat.cast_zero, add_zero]
    congr 2
    apply List.map_congr_left
    intro k _
    simp only [Function.comp, Nat.cast_succ]
    congr 2
    omega

/-! ## The claims -/

/-- C1 (fails on the code): the buffer `FF FF 00 00 FF FF 00 01` has even length
8 and a zero checksum field; `Checksum` gives `0xFFFF` for it, and after this
value is written into bytes 2 and 3 `Checksum` of the result is `0xFFFF`, not
`0`.  The word sum is `0x1FFFF`; `uint16(sum) + uint16(sum>>16)` drops the
carry of the fold. -/
theorem C1_checksum_law_fails :
    IsBytes [0xFF, 0xFF, 0, 0, 0xFF, 0xFF, 0x00, 0x01] ∧
    Checksum [0xFF, 0xFF, 0, 0, 0xFF, 0xFF, 0x00, 0x01] = 0xFFFF ∧
    putChecksum [0xFF, 0xFF, 0, 0, 0xFF, 0xFF, 0x00, 0x01]
        (Checksum [0xFF, 0xFF, 0, 0, 0xFF, 0xFF, 0x00, 0x01])
      = [0xFF, 0xFF, 0xFF, 0xFF, 0xFF, 0xFF, 0x00, 0x01] ∧
    Checksum (putChecksum [0xFF, 0xFF, 0, 0, 0xFF, 0xFF, 0x00, 0x01]
        (Checksum [0xFF, 0xFF, 0, 0, 0xFF, 0xFF, 0x00, 0x01])) = 0xFFFF := by
  decide

/-- C2 (fails on the code): with the default `-l 32`, after three answered
probes and one read failure the counters are sent 4, received 3, failed 1, and
the value the summary passes to `float32` is `1/(4*100) = 0`, while
`100 * 1 / 4` is `25`. -/
theorem C2_loss_is_zero_not_25 :
    main defaultSize 4 [.success, .success, .success, .readFailure] = .summary 4 3 1 0 ∧
    lossArg { sendpkg := 4, recvpkg := 3, failpkg := 1 } = some 0 ∧
    ((0 : Int) : ℚ) ≠ 100 * 1 / 4 := by
  refine ⟨by decide, by decide, by norm_num⟩

/-- C3 (as stated, fails): with `num = 4` (and the default `-l 32`) and four
failed connects the loop finishes with all three counters at zero, so
`sendpkg` is not `4`. -/
theorem C3_connect_failures_not_counted :
    (probeLoop defaultSize 4
        [.connectFailure, .connectFailure, .connectFailure, .connectFailure] 1
        Run.init).status = .finished ∧
    (probeLoop defaultSize 4
        [.connectFailure, .connectFailure, .connectFailure, .connectFailure] 1
        Run.init).counters = { sendpkg := 0, recvpkg := 0, failpkg := 0 } ∧
    (probeLoop defaultSize 4
        [.connectFailure, .connectFailure, .connectFailure, .connectFailure] 1
        Run.init).counters.sendpkg ≠ 4 := by
  decide

/-- C3 (amended): for a probe count `N` below `2^63 - 1`, a receive-buffer size
that `make` accepts (so that every probe ends in one of the listed outcomes)
and `N` outcomes without a write failure, the loop finishes, `sendpkg` is `N`
minus the number of failed connects, `recvpkg` is the number of answered
probes and `failpkg` the number of failed reads. -/
theorem C3_sent_counts_opened_connections (size : Int) (N : Nat) (outs : List Outcome)
    (hs0 : 0 ≤ size) (hs1 : size ≤ maxAlloc)
    (hN : (N : Int) < 9223372036854775807) (hlen : outs.length = N)
    (hw : Outcome.writeFailure ∉ outs) :
    (probeLoop size N outs 1 Run.init).status = .finished ∧
    (probeLoop size N outs 1 Run.init).counters.sendpkg + outs.count .connectFailure = N ∧
    (probeLoop size N outs 1 Run.init).counters.recvpkg = outs.count .success ∧
    (probeLoop size N outs 1 Run.init).counters.failpkg = outs.count .readFailure := by
  have h := probeLoop_counts size N (alloc_ok size hs0 hs1) hN outs 1 Run.init (le_refl _)
    (by rw [hlen]; ring) hw
    (le_refl _) (le_refl _) (le_refl _)
    (by show (0 : Int) + _ < _; rw [hlen]; omega)
    (by show (0 : Int) + _ < _; rw [hlen]; omega)
    (by show (0 : Int) + _ < _; rw [hlen]; omega)
  obtain ⟨a, b, c, d⟩ := h
  refine ⟨a, ?_, ?_, ?_⟩
  · rw [b, hlen]; show (0 : Int) + _ = _; omega
  · rw [c]; show (0 : Int) + _ = _; omega
  · rw [d]; show (0 : Int) + _ = _; omega

/-- Witness of C3 (amended): the default `-l 32` and three probes, the second
failing at connect, the third at read. -/
theorem C3_sent_counts_opened_connections_witness :
    ((0 : Int) ≤ defaultSize ∧ defaultSize ≤ maxAlloc ∧
      ((3 : Nat) : Int) < 9223372036854775807 ∧
      [Outcome.success, Outcome.connectFailure, Outcome.readFailure].length = 3 ∧
      Outcome.writeFailure ∉ [Outcome.success, Outcome.connectFailure, Outcome.readFailure]) ∧
    ((probeLoop defaultSize (3 : Nat) [.success, .connectFailure, .readFailure] 1
          Run.init).status = .finished ∧
      (probeLoop defaultSize (3 : Nat) [.success, .connectFailure, .readFailure] 1
            Run.init).counters.sendpkg
          + [Outcome.success, Outcome.connectFailure, Outcome.readFailure].count .connectFailure
        = (3 : Nat) ∧
      (probeLoop defaultSize (3 : Nat) [.success, .connectFailure, .readFailure] 1
            Run.init).counters.recvpkg
        = [Outcome.success, Outcome.connectFailure, Outcome.readFailure].count .success ∧
      (probeLoop defaultSize (3 : Nat) [.success, .connectFailure, .readFailure] 1
            Run.init).counters.failpkg
        = [Outcome.success, Outcome.connectFailure, Outcome.readFailure].count .readFailure) :=
  ⟨⟨by decide, by decide, by decide, rfl, by decide⟩,
    C3_sent_counts_opened_connections defaultSize 3 [.success, .connectFailure, .readFailure]
      (by decide) (by decide) (by decide) rfl (by decide)⟩

/-- C5 (as stated, fails): with `num = 65536` (and the default `-l 32`) and
every probe answered, the sequence numbers of the requests built are not
`1, 2, ..., 65536`: `uint16(i)` of the last iteration is `0`. -/
theorem C5_sequence_wraps_at_65536 :
    (probeLoop defaultSize 65536 (List.replicate 65536 Outcome.success) 1
        Run.init).requests.map ICMP.SequenceNum
      ≠ List.range' 1 65536 := by
  intro h
  have hw : Outcome.writeFailure ∉ List.replicate 65536 Outcome.success := by
    intro hm
    exact absurd (List.eq_of_mem_replicate hm) (by decide)
  rw [probeLoop_requests defaultSize 65536 (by decide) (by decide) _ 1 Run.init (le_refl _)
    (by rw [List.length_replicate]; rfl) hw] at h
  have hm : 65536 ∈ List.range' 1 65536 := by
    rw [List.mem_range']
    exact ⟨65535, by decide, by decide⟩
  rw [← h] at hm
  simp only [List.map_append, List.map_map, List.mem_append, List.mem_map] at hm
  rcases hm with ⟨x, hx, _⟩ | ⟨k, _, hk⟩
  · exact absurd hx (List.not_mem_nil x)
  · have := toUint16_lt (1 + (k : Int))
    simp only [Function.comp, getICMP_seq] at hk
    omega

/-- C5 (amended): for a probe count `N` of at most `65535`, a receive-buffer
size that `make` accepts (so that every probe ends in one of the listed
outcomes) and `N` outcomes without a write failure, the loop finishes and the
sequence numbers of the requests it built, in iteration order, are
`1, 2, ..., N`. -/
theorem C5_sequence_numbers (size : Int) (N : Nat) (outs : List Outcome)
    (hs0 : 0 ≤ size) (hs1 : size ≤ maxAlloc) (hN : N ≤ 65535)
    (hlen : outs.length = N) (hw : Outcome.writeFailure ∉ outs) :
    (probeLoop size N outs 1 Run.init).status = .finished ∧
    (probeLoop size N outs 1 Run.init).requests.map ICMP.SequenceNum = List.range' 1 N := by
  have hp := alloc_ok size hs0 hs1
  have hN2 : (N : Int) < 9223372036854775807 := by omega
  have hc := probeLoop_counts size N hp hN2 outs 1 Run.init (le_refl _) (by rw [hlen]; ring) hw
    (le_refl _) (le_refl _) (le_refl _)
    (by show (0 : Int) + _ < _; rw [hlen]; omega)
    (by show (0 : Int) + _ < _; rw [hlen]; omega)
    (by show (0 : Int) + _ < _; rw [hlen]; omega)
  refine ⟨hc.1, ?_⟩
  rw [probeLoop_requests size N hp hN2 outs 1 Run.init (le_refl _) (by rw [hlen]; ring) hw, hlen]
  show List.map ICMP.SequenceNum ([] ++ _) = _
  rw [List.nil_append, List.map_map, List.range'_eq_map_range]
  apply List.map_congr_left
  intro k hk
  rw [List.mem_range] at hk
  show toUint16 (1 + (k : Int)) = 1 + k
  have e : (1 : Int) + (k : Int) = ((1 + k : Nat) : Int) := by push_cast; ring
  rw [e, toUint16_natCast]
  omega

/-- Witness of C5 (amended): the default `-l 32` and three probes, none with a
write failure. -/
theorem C5_sequence_numbers_witness :
    ((0 : Int) ≤ defaultSize ∧ defaultSize ≤ maxAlloc ∧ (3 : Nat) ≤ 65535 ∧
      [Outcome.success, Outcome.connectFailure, Outcome.readFailure].length = 3 ∧
      Outcome.writeFailure ∉ [Outcome.success, Outcome.connectFailure, Outcome.readFailure]) ∧
    ((probeLoop defaultSize (3 : Nat) [.success, .connectFailure, .readFailure] 1
          Run.init).status = .finished ∧
      (probeLoop defaultSize (3 : Nat) [.success, .connectFailure, .readFailure] 1
          Run.init).requests.map ICMP.SequenceNum = List.range' 1 3) :=
  ⟨⟨by decide, by decide, by decide, rfl, by decide⟩,
    C5_sequence_numbers defaultSize 3 [.success, .connectFailure, .readFailure]
      (by decide) (by decide) (by decide) rfl (by decide)⟩

/-- C6 (fails on the code): for the default `-w 1500`, documented as
milliseconds, the duration added to the current time is `1500` nanoseconds,
not `1500 * time.Millisecond = 1 500 000 000` nanoseconds. -/
theorem C6_deadline_is_nanoseconds :
    readDeadlineDuration defaultTimeout = 1500 ∧
    defaultTimeout * Millisecond = 1500000000 ∧
    readDeadlineDuration defaultTimeout ≠ defaultTimeout * Millisecond := by
  decide

/-- C7: for a 16-bit `seq`, `getICMP seq` has type 8, code 0, identifier 1,
sequence number `seq`, and as checksum the `Checksum` of the bytes
`08 00 00 00 00 01 (seq >> 8) (seq & 0xFF)`. -/
theorem C7_getICMP_header (seq : Nat) (h : seq < 65536) :
    getICMP seq
      = { Typ := 8, Code := 0,
          Checksum := Checksum [0x08, 0x00, 0x00, 0x00, 0x00, 0x01, seq >>> 8, seq &&& 0xFF],
          Identifier := 1, SequenceNum := seq } := by
  have h1 : (seq >>> 8) % 256 = seq >>> 8 := by
    rw [Nat.shiftRight_eq_div_pow]; omega
  have h2 : seq % 256 = seq &&& 0xFF := (Nat.and_pow_two_sub_one_eq_mod seq 8).symm
  unfold getICMP
  simp only [serialize, putUint16, List.cons_append, List.nil_append, h1, h2]
  rfl

/-- Witness of C7: the first probe, `seq = 1`. -/
theorem C7_getICMP_header_witness :
    (1 : Nat) < 65536 ∧
    getICMP 1
      = { Typ := 8, Code := 0,
          Checksum := Checksum [0x08, 0x00, 0x00, 0x00, 0x00, 0x01, 1 >>> 8, 1 &&& 0xFF],
          Identifier := 1, SequenceNum := 1 } :=
  ⟨by decide, C7_getICMP_header 1 (by decide)⟩

/-- C8: for a 16-bit `seq` and a payload of `n` zero bytes (`n` at most the
1024 bytes of `data`, so in particular `ps = 4` and `0`), the bytes handed to
`conn.Write` for `getICMP seq` exist and their `Checksum` is `0`. -/
theorem C8_transmitted_bytes_verify (seq : Nat) (h : seq < 65536) (n : Nat) (hn : n ≤ 1024) :
    (sendBuffer (getICMP seq) n).map Checksum = some 0 := by
  unfold sendBuffer
  rw [if_pos hn, List.take_replicate, Nat.min_eq_left hn, Option.map_some',
    checksum_append_zeros, header_verifies seq h]

/-- Witness of C8: the largest sequence number with the payload size `ps` of
the program. -/
theorem C8_transmitted_bytes_verify_witness :
    ((65535 : Nat) < 65536 ∧ ps ≤ 1024) ∧
    (sendBuffer (getICMP 65535) ps).map Checksum = some 0 :=
  ⟨⟨by decide, by decide⟩, C8_transmitted_bytes_verify 65535 (by decide) ps (by decide)⟩

/-- C9 (fails on the code): for the one-byte buffer `01` the odd byte is
added as the low-order byte, `Checksum [0x01] = 0xFFFE`, while the padded
buffer `01 00` gives `0xFEFF`. -/
theorem C9_odd_byte_is_low_order :
    Checksum [0x01] = 0xFFFE ∧ Checksum ([0x01] ++ [0x00]) = 0xFEFF ∧
    Checksum [0x01] ≠ Checksum ([0x01] ++ [0x00]) := by
  decide

/-- C10 (fails on the code): with `num = 0`, and with `num = 4` and four
failed connects (the default `-l 32` in both), the loop finishes with
`sendpkg = 0`, the divisor `sendpkg*100` is zero and the summary is a run-time
panic. -/
theorem C10_zero_divisor :
    main defaultSize 0 [] = .panic ∧
    main defaultSize 4 [.connectFailure, .connectFailure, .connectFailure, .connectFailure]
      = .panic ∧
    wrapInt ((probeLoop defaultSize 0 [] 1 Run.init).counters.sendpkg * 100) = 0 ∧
    wrapInt ((probeLoop defaultSize 4
      [.connectFailure, .connectFailure, .connectFailure, .connectFailure]
      1 Run.init).counters.sendpkg * 100) = 0 := by
  decide

end PingGo
